import Mathlib

/-!
Verification of the Policy-matcher backend (src/backend) against its
natural-language specification.  The Python modules `llm.py`, `analysis.py`,
`rewrite.py`, `report.py` and `main.py` are shallowly embedded below:
pure functions become Lean functions, Python exceptions become `Option` /
`Except` results, and the nondeterministic text-generation backend is a
parameter (`raw : Nat → String`, the n-th backend response).
-/

set_option autoImplicit false

namespace PolicyMatcher

/-! ### Python string primitives

The Python `str.strip()` method removes the whitespace characters space, tab,
newline, carriage return, vertical tab and form feed from both ends; the
same class is regex `\s` (ASCII part).  `str.lower()` and slicing `[:n]`
are modelled over the unicode code points of the string (ASCII-faithful). -/

def pyIsSpace (c : Char) : Bool :=
  c = ' ' || c = '\t' || c = '\n' || c = '\r' || c = '\x0b' || c = '\x0c'

/-- Python `str.strip()` (no argument): drop whitespace at both ends. -/
def pyStrip (s : String) : String :=
  String.mk (((s.toList.dropWhile pyIsSpace).reverse.dropWhile pyIsSpace).reverse)

/-- Python `str.lower()` (modelled on ASCII letters). -/
def pyLower (s : String) : String :=
  String.mk (s.toList.map Char.toLower)

/-- Python slicing `s[:n]`. -/
def pyTake (n : Nat) (s : String) : String :=
  String.mk (s.toList.take n)

/-- Python `str.strip(ch)`: drop the character `ch` from both ends. -/
def pyStripChar (ch : Char) (s : String) : String :=
  String.mk (((s.toList.dropWhile (· = ch)).reverse.dropWhile (· = ch)).reverse)

/-! ### JSON values

`json.loads` produces strings, numbers, booleans, null, lists and objects.
Numbers are modelled as integers (no claim depends on floats).  `JVal.pyStr`
is Python `str()` of such a value and `JVal.pyRepr` its `repr()` (string
escaping inside `repr` of containers is not modelled further; no claim
depends on it). -/

inductive JVal where
  | str (s : String)
  | num (n : Int)
  | bool (b : Bool)
  | null
  | list (xs : List JVal)
  | dict (entries : List (String × JVal))

mutual

def JVal.pyRepr : JVal → String
  | .str s => "'" ++ s ++ "'"
  | .num n => toString n
  | .bool true => "True"
  | .bool false => "False"
  | .null => "None"
  | .list xs => "[" ++ String.intercalate ", " (JVal.pyReprList xs) ++ "]"
  | .dict entries => "\x7b" ++ String.intercalate ", " (JVal.pyReprEntries entries) ++ "\x7d"

def JVal.pyReprList : List JVal → List String
  | [] => []
  | x :: xs => x.pyRepr :: JVal.pyReprList xs

def JVal.pyReprEntries : List (String × JVal) → List String
  | [] => []
  | (k, v) :: xs => ("'" ++ k ++ "': " ++ v.pyRepr) :: JVal.pyReprEntries xs

end

/-- Python `str(v)` for a JSON value. -/
def JVal.pyStr : JVal → String
  | .str s => s
  | v => v.pyRepr

/-- A parsed JSON object (Python dict from `json.loads`; keys unique, so
first-match lookup agrees with the Python dict). -/
abbrev JObj := List (String × JVal)

/-- Python `result.get(k)` on a dict. -/
def dictGet (obj : JObj) (k : String) : Option JVal :=
  (obj.find? (fun p => p.1 = k)).map (·.2)

/-- Python `k in result` on a dict. -/
def dictHas (obj : JObj) (k : String) : Bool :=
  obj.any (fun p => p.1 = k)

/-! ### `analysis._sanitize` (src/backend/analysis.py lines 24–26)

`re.sub(r"[^\w\-]", "_", s).strip("_")`.  Regex `\w` is modelled over
ASCII: letters, digits and underscore. -/

def isWordChar (c : Char) : Bool :=
  c.isAlpha || c.isDigit || c = '_'

/-- Keep only safe characters for use in a filename component. -/
def _sanitize (s : String) : String :=
  pyStripChar '_' (String.mk (s.toList.map (fun c =>
    if isWordChar c || c = '-' then c else '_')))

/-- Analyze output table filename `f"{ts}_{safe_client}_{standard}.xlsx"`
(src/backend/analysis.py line 144). -/
def analyzeXlsxName (ts client stem : String) : String :=
  ts ++ "_" ++ _sanitize client ++ "_" ++ _sanitize stem ++ ".xlsx"

/-! ### `analysis._validate_llm_output` (src/backend/analysis.py lines 73–83) -/

def ALLOWED_MATCH_VALUES : List String := ["yes", "no", "partial"]

def MAX_FIELD_CHARS : Nat := 4000

structure Verdict where
  matchVal : String
  if_yes_reason : String
  suggestions : String
  deriving Repr, DecidableEq

/-- The lowercased, trimmed string form of `result.get("match", "")`. -/
def coercedMatch (result : JObj) : String :=
  pyLower (pyStrip ((dictGet result "match").getD (JVal.str "")).pyStr)

/-- Enforce expected types and value constraints on LLM output.
Returns `none` where the Python raises `ValueError` (`ValidationError`). -/
def _validate_llm_output (result : JObj) : Option Verdict :=
  let matchVal := coercedMatch result
  if ALLOWED_MATCH_VALUES.contains matchVal then
    some
      { matchVal := matchVal
        if_yes_reason :=
          pyTake MAX_FIELD_CHARS ((dictGet result "if_yes_reason").getD (JVal.str "")).pyStr
        suggestions :=
          pyTake MAX_FIELD_CHARS ((dictGet result "suggestions").getD (JVal.str "")).pyStr }
  else
    none

/-! ### A model of `json.loads`

`json.loads` is the JSON decoder of the Python standard library (a dependency of
the repository, not repository code); it is modelled here by a fuelled
recursive-descent parser.  Numbers are parsed as integers (a fraction or
exponent part makes the model reject; no claim involves floats) and a
`\u` escape decodes one code unit (surrogate pairing is not modelled).
`json.loads` succeeds only when, after one complete value, only whitespace
remains ("extra data" otherwise).  The theorems below are parametric in the
underlying decoder; this model is used to evaluate them, and the
counterexample, on concrete inputs. -/

def isJsonWs (c : Char) : Bool :=
  c = ' ' || c = '\t' || c = '\n' || c = '\r'

def skipJsonWs (cs : List Char) : List Char := cs.dropWhile isJsonWs

def hexVal (c : Char) : Option Nat :=
  if c.isDigit then some (c.toNat - 48)
  else if 'a' ≤ c ∧ c ≤ 'f' then some (c.toNat - 87)
  else if 'A' ≤ c ∧ c ≤ 'F' then some (c.toNat - 55)
  else none

/-- Parse the body of a JSON string literal, the opening quote already
consumed; returns the decoded characters and the input after the closing
quote. -/
def parseStringBody : Nat → List Char → Option (List Char × List Char)
  | 0, _ => none
  | _, [] => none
  | fuel + 1, c :: cs =>
    if c = '"' then some ([], cs)
    else if c = '\\' then
      match cs with
      | [] => none
      | e :: cs2 =>
        let dec : Option (Char × List Char) :=
          if e = '"' then some ('"', cs2)
          else if e = '\\' then some ('\\', cs2)
          else if e = '/' then some ('/', cs2)
          else if e = 'n' then some ('\n', cs2)
          else if e = 't' then some ('\t', cs2)
          else if e = 'r' then some ('\r', cs2)
          else if e = 'b' then some ('\x08', cs2)
          else if e = 'f' then some ('\x0c', cs2)
          else if e = 'u' then
            match cs2 with
            | h1 :: h2 :: h3 :: h4 :: cs3 =>
              match hexVal h1, hexVal h2, hexVal h3, hexVal h4 with
              | some a, some b, some c2, some d =>
                some (Char.ofNat (((a * 16 + b) * 16 + c2) * 16 + d), cs3)
              | _, _, _, _ => none
            | _ => none
          else none
        match dec with
        | none => none
        | some (ch, rest) => (parseStringBody fuel rest).map (fun p => (ch :: p.1, p.2))
    else
      (parseStringBody fuel cs).map (fun p => (c :: p.1, p.2))

def parseDigits (acc : Nat) : List Char → Nat × List Char
  | [] => (acc, [])
  | c :: cs => if c.isDigit then parseDigits (acc * 10 + (c.toNat - 48)) cs else (acc, c :: cs)

/-- Parse an integer JSON number (sign and digits); rejects a following
fraction or exponent part. -/
def parseNumber (cs : List Char) : Option (Int × List Char) :=
  let (neg, cs1) : Bool × List Char :=
    match cs with
    | '-' :: rest => (true, rest)
    | _ => (false, cs)
  match cs1 with
  | c :: _ =>
    if c.isDigit then
      let (n, rest) := parseDigits 0 cs1
      match rest with
      | '.' :: _ => none
      | 'e' :: _ => none
      | 'E' :: _ => none
      | _ => some (if neg then -(n : Int) else (n : Int), rest)
    else none
  | [] => none

def openBraceChar : Char := Char.ofNat 123

def closeBraceChar : Char := Char.ofNat 125

mutual

def parseVal : Nat → List Char → Option (JVal × List Char)
  | 0, _ => none
  | fuel + 1, cs0 =>
    match skipJsonWs cs0 with
    | [] => none
    | c :: cs =>
      if c = '"' then
        (parseStringBody (cs.length + 1) cs).map (fun p => (JVal.str (String.mk p.1), p.2))
      else if c = openBraceChar then
        match skipJsonWs cs with
        | c2 :: cs2 =>
          if c2 = closeBraceChar then some (JVal.dict [], cs2)
          else parseMembers fuel cs
        | [] => none
      else if c = '[' then
        match skipJsonWs cs with
        | ']' :: cs2 => some (JVal.list [], cs2)
        | _ => parseElems fuel cs
      else if (c :: cs).take 4 = ['t', 'r', 'u', 'e'] then
        some (JVal.bool true, (c :: cs).drop 4)
      else if (c :: cs).take 5 = ['f', 'a', 'l', 's', 'e'] then
        some (JVal.bool false, (c :: cs).drop 5)
      else if (c :: cs).take 4 = ['n', 'u', 'l', 'l'] then
        some (JVal.null, (c :: cs).drop 4)
      else
        (parseNumber (c :: cs)).map (fun p => (JVal.num p.1, p.2))

/-- Parse the members of a nonempty JSON object, after the opening brace. -/
def parseMembers : Nat → List Char → Option (JVal × List Char)
  | 0, _ => none
  | fuel + 1, cs =>
    match skipJsonWs cs with
    | '"' :: cs1 =>
      match parseStringBody (cs1.length + 1) cs1 with
      | none => none
      | some (key, cs2) =>
        match skipJsonWs cs2 with
        | ':' :: cs3 =>
          match parseVal fuel cs3 with
          | none => none
          | some (v, cs4) =>
            match skipJsonWs cs4 with
            | ',' :: cs5 =>
              match parseMembers fuel cs5 with
              | some (JVal.dict entries, rest) =>
                some (JVal.dict ((String.mk key, v) :: entries), rest)
              | _ => none
            | c6 :: cs6 =>
              if c6 = closeBraceChar then some (JVal.dict [(String.mk key, v)], cs6)
              else none
            | [] => none
        | _ => none
    | _ => none

/-- Parse the elements of a nonempty JSON array, after the opening bracket. -/
def parseElems : Nat → List Char → Option (JVal × List Char)
  | 0, _ => none
  | fuel + 1, cs =>
    match parseVal fuel cs with
    | none => none
    | some (v, cs1) =>
      match skipJsonWs cs1 with
      | ',' :: cs2 =>
        match parseElems fuel cs2 with
        | some (JVal.list xs, rest) => some (JVal.list (v :: xs), rest)
        | _ => none
      | ']' :: cs2 => some (JVal.list [v], cs2)
      | _ => none

end

/-- The model of `json.loads`, restricted to a top-level JSON object (the shape every
caller in this repository requires of the model output). -/
def jsonLoads (s : String) : Option JObj :=
  match parseVal (2 * s.length + 2) s.toList with
  | some (JVal.dict entries, rest) => if skipJsonWs rest = [] then some entries else none
  | _ => none

/-! ### `llm._parse_json` (src/backend/llm.py lines 32–43)

The two `re.search` calls are modelled by direct implementations of the
concrete patterns, following the Python leftmost-start, earliest-alternative,
backtracking semantics with `re.DOTALL`:

* tier 2: ```` ```(?:json)?\s*(\{.*?\})\s*``` ````  (returns group 1);
* tier 3: `\{.*\}` (greedy: from the first open brace that has a later
  close brace, up to the last close brace; returns group 0). -/

def backtickChar : Char := Char.ofNat 96

/-- The prefix of the input up to and including its last close brace,
`none` when the input has no close brace. -/
def upToLastClose : List Char → Option (List Char)
  | [] => none
  | c :: cs =>
    match upToLastClose cs with
    | some rest => some (c :: rest)
    | none => if c = closeBraceChar then some [c] else none

/-- Model of `re.search(r"\{.*\}", text, re.DOTALL)`, group 0. -/
def braceSpan : List Char → Option String
  | [] => none
  | c :: cs =>
    if c = openBraceChar then
      match upToLastClose cs with
      | some rest => some (String.mk (openBraceChar :: rest))
      | none => braceSpan cs
    else braceSpan cs

/-- Does `\s*` followed by three backticks match here?  (`\s*` is greedy,
and since a backtick is not whitespace no backtracking can help.) -/
def ticksAfterWs (t : List Char) : Bool :=
  (t.dropWhile pyIsSpace).take 3 = [backtickChar, backtickChar, backtickChar]

/-- Lazy `.*?\}` then `\s*` and the closing fence: scan for the earliest
close brace whose tail matches, accumulating the content so far. -/
def lazyClose (content : List Char) : List Char → Option (List Char)
  | [] => none
  | c :: cs =>
    if c = closeBraceChar && ticksAfterWs cs then
      some (openBraceChar :: content.reverse ++ [closeBraceChar])
    else lazyClose (c :: content) cs

/-- Match `\s*(\{.*?\})\s*` plus closing fence at the given position. -/
def fenceBody (t : List Char) : Option (List Char) :=
  match t.dropWhile pyIsSpace with
  | c :: rest => if c = openBraceChar then lazyClose [] rest else none
  | [] => none

/-- Match after an opening fence: `(?:json)?` greedily tries to consume a
language tag first, backtracking to the untagged branch on failure. -/
def fenceFrom (t : List Char) : Option (List Char) :=
  match (if t.take 4 = ['j', 's', 'o', 'n'] then fenceBody (t.drop 4) else none) with
  | some g => some g
  | none => fenceBody t

def fenceSearchAux : List Char → Option (List Char)
  | [] => none
  | c :: cs =>
    if c = backtickChar && cs.take 2 = [backtickChar, backtickChar] then
      match fenceFrom (cs.drop 2) with
      | some g => some g
      | none => fenceSearchAux cs
    else fenceSearchAux cs

/-- Model of `re.search(r"```(?:json)?\s*(\{.*?\})\s*```", text, re.DOTALL)`, group 1. -/
def fenceSearch (text : String) : Option String :=
  (fenceSearchAux text.toList).map String.mk

/-- Parse JSON, stripping markdown fences if needed.  Parametric in the
underlying JSON decoder `jl` (`json.loads`); `none` models a raised
`json.JSONDecodeError`.  Note the control flow of the code: when the fence
regex matches, the result is whatever `json.loads` makes of its capture —
a failure there propagates and the brace-span tier is never tried. -/
def parse_json {α : Type} (jl : String → Option α) (text : String) : Option α :=
  match jl text with
  | some v => some v
  | none =>
    match fenceSearch text with
    | some g => jl g
    | none =>
      match braceSpan text.toList with
      | some g => jl g
      | none => none

/-- Modelled from the spec wording of claim C3 (the claim as stated):
"first the whole text is parsed as JSON; if that fails, a fenced code block
... is searched for and its contents parsed; if that fails, the first
balanced-looking brace span in the text is searched for and parsed; if none
of the three succeed the attempt is a parse failure" — read so that a
tier-2 parse failure falls through to tier 3. -/
def parse_json_spec {α : Type} (jl : String → Option α) (text : String) : Option α :=
  match jl text with
  | some v => some v
  | none =>
    match (fenceSearch text).bind jl with
    | some v => some v
    | none => (braceSpan text.toList).bind jl

/-! ### `llm.call_llm` (src/backend/llm.py lines 94–121)

The provider backends (`_call_anthropic`, `_call_openai`, `_call_ollama`)
return raw response text from the network; they are modelled by an oracle
`raw : Nat → String` giving the text of the n-th backend call.  The loop
is parametric in the JSON decoder `jl` and in `hasKey` (the Python test
`k in result`).  The second component of the result counts backend calls. -/

def llmProviders : List String := ["anthropic", "openai", "ollama"]

inductive CallOutcome (α : Type) where
  | ok (result : α)
  | invalidProvider
  | exhausted

/-- One attempt of the retry loop: parse, then check required keys.
`required_keys and not all(k in result for k in required_keys)` skips the
key check for an empty (or `None`) list, which agrees with `List.all`
being true on `[]`. -/
def llmAttempt {α : Type} (jl : String → Option α) (hasKey : α → String → Bool)
    (requiredKeys : List String) (rawText : String) : Option α :=
  match parse_json jl rawText with
  | none => none
  | some result =>
    if requiredKeys.all (fun k => hasKey result k) then some result else none

def call_llm_loop {α : Type} (jl : String → Option α) (hasKey : α → String → Bool)
    (requiredKeys : List String) (raw : Nat → String) : Nat → Nat → Option α × Nat
  | 0, _ => (none, 0)
  | fuel + 1, idx =>
    match llmAttempt jl hasKey requiredKeys (raw idx) with
    | some result => (some result, 1)
    | none =>
      let r := call_llm_loop jl hasKey requiredKeys raw fuel (idx + 1)
      (r.1, r.2 + 1)

/-- The function `call_llm`: unknown provider fails before any backend call; otherwise
up to 3 attempts, returning the first attempt that parses and has every
required key, `exhausted` (the `RuntimeError` / `InvocationExhausted`)
otherwise. -/
def call_llm {α : Type} (jl : String → Option α) (hasKey : α → String → Bool)
    (provider : String) (requiredKeys : List String) (raw : Nat → String) :
    CallOutcome α × Nat :=
  if llmProviders.contains provider then
    match call_llm_loop jl hasKey requiredKeys raw 3 0 with
    | (some result, n) => (.ok result, n)
    | (none, n) => (.exhausted, n)
  else
    (.invalidProvider, 0)

/-! ### Artifact names: `Path(...).stem` and the carried-forward suffix

`rewrite.rewrite_suggestions` (src/backend/rewrite.py lines 108–138) and
`report.generate_report` (src/backend/report.py lines 139–146) both run

    stem = Path(input_xlsx_filename).stem
    parts = stem.split("_", 2)
    remainder = parts[2] if len(parts) > 2 else stem

and name their output `f"{ts}_{remainder}.xlsx"` / `...docx`. -/

/-- Python `str.split(sep)` for a one-character separator (`""` gives
`[""]`; n separators give n+1 pieces). -/
def splitOnChar (sep : Char) : List Char → List (List Char)
  | [] => [[]]
  | c :: rest =>
    if c = sep then [] :: splitOnChar sep rest
    else
      match splitOnChar sep rest with
      | [] => [[c]]
      | hd :: tl => (c :: hd) :: tl

/-- The slash-separated components of a path string. -/
def pathComponents (filename : String) : List String :=
  (splitOnChar '/' filename.toList).map String.mk

/-- The final path component (`Path(filename).name`): last nonempty
slash-separated component. -/
def pathFinalComponent (filename : String) : String :=
  (((pathComponents filename).filter (fun c => c != "")).getLast?).getD ""

/-- Index of the last occurrence of `c`, if any. -/
def rfindIdx (c : Char) : List Char → Option Nat
  | [] => none
  | x :: xs =>
    match rfindIdx c xs with
    | some i => some (i + 1)
    | none => if x = c then some 0 else none

/-- Python `Path(filename).stem`: the final component with its suffix removed;
the suffix is `name[i:]` for the last dot index `i` when `0 < i <
len(name) - 1`, else empty. -/
def pathStem (filename : String) : String :=
  let name := pathFinalComponent filename
  let cs := name.toList
  match rfindIdx '.' cs with
  | some i => if 0 < i ∧ i < cs.length - 1 then String.mk (cs.take i) else name
  | none => name

/-- Split at the first occurrence of `c`: `some (before, after)`, with
`c ∉ before`, or `none` when `c` does not occur. -/
def breakAt (c : Char) : List Char → Option (List Char × List Char)
  | [] => none
  | x :: xs =>
    if x = c then some ([], xs)
    else (breakAt c xs).map (fun p => (x :: p.1, p.2))

/-- The computation `parts = stem.split("_", 2); parts[2] if len(parts) > 2 else stem`:
everything after the second underscore, or the whole stem when it has
fewer than two underscores. -/
def carriedOfStem (stem : String) : String :=
  match breakAt '_' stem.toList with
  | none => stem
  | some (_, rest1) =>
    match breakAt '_' rest1 with
    | none => stem
    | some (_, rest2) => String.mk rest2

/-- The carried-forward suffix extracted from the input filename. -/
def carriedSuffix (filename : String) : String :=
  carriedOfStem (pathStem filename)

/-- Rewrite-stage output table name `f"{ts}_{remainder}.xlsx"`. -/
def rewriteOutputXlsxName (ts filename : String) : String :=
  ts ++ "_" ++ carriedSuffix filename ++ ".xlsx"

/-- Report-stage output document name `f"{ts}_{remainder}.docx"`. -/
def reportOutputDocxName (ts filename : String) : String :=
  ts ++ "_" ++ carriedSuffix filename ++ ".docx"

/-! ### Path resolution inside the artifact store

`rewrite._resolve_input` (src/backend/rewrite.py lines 39–50) and
`report._resolve_input` (src/backend/report.py lines 37–44) are the same
function; `main.download_file` (src/backend/main.py lines 102–116) uses
the same `resolve` + `is_relative_to` guard with HTTP status errors.
Absolute paths are modelled as lists of components from the filesystem
root; `OUTPUTS_DIR.resolve()` is an arbitrary already-normalized `root`.
`Path.resolve()` is modelled without symbolic links: drop empty and `.`
components and let `..` remove the previous component (at the root, `..`
stays at the root). -/

/-- One step of lexical path normalization, as `Path.resolve()` does on a
link-free tree. -/
def normStep (acc : List String) (comp : String) : List String :=
  if comp = "" || comp = "." then acc
  else if comp = ".." then acc.dropLast
  else acc ++ [comp]

/-- Does the path string start with a slash (an absolute path)? -/
def startsWithSlash (filename : String) : Bool :=
  match filename.toList with
  | c :: _ => c = '/'
  | [] => false

/-- Python `(base / filename).resolve()`: a filename starting with `/` replaces
the base (Python `Path` join semantics), then the path is normalized. -/
def resolvePath (base : List String) (filename : String) : List String :=
  let comps := pathComponents filename
  let start := if startsWithSlash filename then [] else base
  comps.foldl normStep start

inductive ResolveError where
  | invalidFilename
  | notFound
  deriving Repr, DecidableEq

/-- Resolve filename to an absolute path inside the artifact store root;
`fsExists` is the file system.  `Except.error .invalidFilename` models the
raised `ValueError("Invalid input filename")`. -/
def _resolve_input (root : List String) (fsExists : List String → Bool)
    (filename : String) : Except ResolveError (List String) :=
  let resolved := resolvePath root filename
  if root.isPrefixOf resolved then
    if fsExists resolved then .ok resolved
    else .error .notFound
  else .error .invalidFilename

/-- Endpoint `GET /api/download/{filename}`: the error side carries the HTTP status
of the raised `HTTPException`; the ok side is the path served by
`FileResponse`. -/
def download_file (root : List String) (fsExists isFile : List String → Bool)
    (filename : String) : Except Nat (List String) :=
  let safePath := resolvePath root filename
  if root.isPrefixOf safePath then
    if fsExists safePath && isFile safePath then .ok safePath
    else .error 404
  else .error 400

/-! ### Spreadsheet cells and rows

A worksheet cell value is modelled as `Option String` (`none` is an empty
cell, Python `None`); the artifacts of this repository hold strings in every
relevant column.  A data row as produced by `_read_xlsx_rows` is
`dict(zip(headers, row))`: an association of header cells to value cells,
where a duplicated header keeps the later column (dict overwrite). -/

abbrev Cell := Option String

/-- Python `str(value)` for a cell. -/
def pyStrCell : Cell → String
  | none => "None"
  | some s => s

abbrev Row := List (Cell × Cell)

/-- Python `k in row` and `row.get(k)`, distinguishing a missing key from a `None`
value: `none` means the key is absent. -/
def rowGetOpt (row : Row) (k : String) : Option Cell :=
  (row.reverse.find? (fun p => p.1 = some k)).map (·.2)

/-- Python `row.get(k)`: `None` both for a missing key and a `None` value. -/
def rowGet (row : Row) (k : String) : Cell :=
  ((rowGetOpt row k).getD none)

/-- Python `str(row.get(k, ""))`. -/
def pyStrGetDefaultEmpty (row : Row) (k : String) : String :=
  match rowGetOpt row k with
  | none => ""
  | some c => pyStrCell c

/-- Python `(row.get(k) or "")`: `None` and the empty string both give `""`. -/
def cellOrEmptyStr (row : Row) (k : String) : String :=
  match rowGet row k with
  | none => ""
  | some s => s

/-! ### Merging stage results into the table

`analysis.analyze_policy` (src/backend/analysis.py lines 128–145) and
`rewrite.rewrite_suggestions` (src/backend/rewrite.py lines 119–139) share
the same write-back shape: find `last_col = ws.max_column`, write the new
column names in row 1 at `last_col + 1 ...`, and for every data row look
up `str(cell(row, 1).value)` in `result_by_id` (a dict built from the
results list, so a duplicated id keeps the last result) and fill the new
cells, leaving them blank when the lookup misses. -/

structure Sheet where
  header : List Cell
  rows : List (List Cell)
  deriving Repr, DecidableEq

/-- openpyxl `ws.max_column`: the widest occupied column (at least 1). -/
def sheetMaxColumn (s : Sheet) : Nat :=
  max (max 1 s.header.length) (s.rows.foldr (fun r acc => max r.length acc) 0)

/-- Extend a row with empty cells up to width `n`. -/
def padTo (n : Nat) (r : List Cell) : List Cell :=
  r ++ List.replicate (n - r.length) none

/-- The write-back common to Analyze and Rewrite: `lookup` sends the
string-coerced first-column id to the new-column values of its matching
result, `none` when no result matches. -/
def mergeTable (s : Sheet) (newCols : List String)
    (lookup : String → Option (List Cell)) : Sheet :=
  let lc := sheetMaxColumn s
  { header := padTo lc s.header ++ newCols.map some
    rows := s.rows.map (fun r =>
      match lookup (pyStrCell (r.getD 0 none)) with
      | some vals => padTo lc r ++ vals
      | none => padTo lc r ++ List.replicate newCols.length none) }

/-- One Analyze result (`{"id": row["id"], ..., **validated}`); only the
fields written back to the table are kept. -/
structure VerdictRow where
  id : Cell
  matchVal : String
  if_yes_reason : String
  suggestions : String
  model : String
  deriving Repr, DecidableEq

def analyzeNewCols : List String := ["match", "if_yes_reason", "suggestions", "selected_llm1"]

/-- Python `result_by_id = {str(r["id"]): r for r in results}` then `.get`. -/
def analyzeLookup (results : List VerdictRow) (rid : String) : Option (List Cell) :=
  (results.reverse.find? (fun r => pyStrCell r.id = rid)).map
    (fun r => [some r.matchVal, some r.if_yes_reason, some r.suggestions, some r.model])

def analyze_merge (s : Sheet) (results : List VerdictRow) : Sheet :=
  mergeTable s analyzeNewCols (analyzeLookup results)

structure RewriteResult where
  id : String
  rewritten : List String
  model : String
  deriving Repr, DecidableEq

def rewriteNewCols : List String := ["rewritten_suggestions", "selected_llm2"]

/-- Rewrite write-back values: the list cell is newline-joined. -/
def rewriteLookup (results : List RewriteResult) (rid : String) : Option (List Cell) :=
  (results.reverse.find? (fun r => r.id = rid)).map
    (fun r => [some (String.intercalate "\n" r.rewritten), some r.model])

def rewrite_merge (s : Sheet) (results : List RewriteResult) : Sheet :=
  mergeTable s rewriteNewCols (rewriteLookup results)

/-! ### `rewrite` per-row processing (src/backend/rewrite.py lines 53–106) -/

def MAX_SUGGESTION_ITEMS : Nat := 10

def MAX_SUGGESTION_CHARS : Nat := 2000

/-- The rewrite-stage `_validate_llm_output`: wrap a single string, reject non-list
values, cap item count then per-item length. -/
def rewrite_validate (result : JObj) : Option (List String) :=
  let rewritten := (dictGet result "rewritten_suggestions").getD (JVal.list [])
  let wrapped : Option (List JVal) :=
    match rewritten with
    | .str s => some [JVal.str s]
    | .list xs => some xs
    | _ => none
  wrapped.map (fun xs =>
    (xs.take MAX_SUGGESTION_ITEMS).map (fun it => pyTake MAX_SUGGESTION_CHARS it.pyStr))

/-- The body of the per-row loop of `rewrite_suggestions`.  `llm` is the
outcome `call_llm` would produce for this row (`none`: the call raised and
the stage aborts); the second component counts model invocations for the
row.  A row whose `suggestions` is missing, `None` or whitespace-only gets
the empty result without invoking the model. -/
def rewrite_process_row (llm : Option JObj) (model : String) (row : Row) :
    Option RewriteResult × Nat :=
  let rowId := pyStrGetDefaultEmpty row "id"
  let suggestions := pyStrip (cellOrEmptyStr row "suggestions")
  if suggestions = "" then (some ⟨rowId, [], model⟩, 0)
  else
    match llm with
    | none => (none, 1)
    | some result =>
      match rewrite_validate result with
      | none => (none, 1)
      | some rewritten => (some ⟨rowId, rewritten, model⟩, 1)

/-! ### `report.generate_report` row selection and rendering
(src/backend/report.py lines 59–68 and 93–152) -/

def MAX_TEXT_CHARS : Nat := 5000

def MAX_BULLET_ITEMS : Nat := 10

def MAX_BULLET_CHARS : Nat := 2000

/-- Regex class `[\x00-\x08\x0b\x0c\x0e-\x1f\x7f]` from `_CTRL_RE`. -/
def isCtrlChar (c : Char) : Bool :=
  c.toNat ≤ 8 || c.toNat = 11 || c.toNat = 12 ||
    (14 ≤ c.toNat && c.toNat ≤ 31) || c.toNat = 127

/-- The report-stage `_sanitize_text`: `None` becomes `""`; control characters are
stripped and the result capped. -/
def _sanitize_text (v : Cell) (maxLen : Nat) : String :=
  match v with
  | none => ""
  | some s => pyTake maxLen (String.mk (s.toList.filter (fun c => !(isCtrlChar c))))

/-- Python `str.split("\n")`. -/
def splitLines (cs : List Char) : List (List Char) :=
  splitOnChar '\n' cs

/-- The report-stage `_parse_bullet_items`: split the newline-joined cell, drop
blank items (before the count cap), sanitize each, cap the count. -/
def _parse_bullet_items (raw : Cell) : List String :=
  match raw with
  | none => []
  | some s =>
    ((((splitLines s.toList).map String.mk).filter (fun it => pyStrip it != "")).map
      (fun it => _sanitize_text (some it) MAX_BULLET_CHARS)).take MAX_BULLET_ITEMS

structure ReportSection where
  category : String
  title : String
  control : String
  items : List String
  idCell : Cell
  deriving Repr, DecidableEq

/-- The row-inclusion test: `(row.get("suggestions") or "").strip()` is
truthy. -/
def reportIncluded (row : Row) : Bool :=
  pyStrip (cellOrEmptyStr row "suggestions") != ""

/-- The processed form of an included row. -/
def mkSection (row : Row) : ReportSection :=
  { category := _sanitize_text (rowGet row "category") MAX_TEXT_CHARS
    title := _sanitize_text (rowGet row "title") MAX_TEXT_CHARS
    control := _sanitize_text (rowGet row "control") MAX_TEXT_CHARS
    items := _parse_bullet_items (rowGet row "rewritten_suggestions")
    idCell :=
      match rowGetOpt row "id" with
      | none => some ""
      | some c => c }

/-- The `processed_rows` loop: skip rows without suggestions. -/
def report_process : List Row → List ReportSection
  | [] => []
  | row :: rest =>
    if reportIncluded row then mkSection row :: report_process rest
    else report_process rest

/-- Sort key `(x["category"] or "", x["id"] or "")`; on the stored strings
`or ""` only turns a `None` id into `""`. -/
def sortKey (sec : ReportSection) : String × String :=
  (sec.category, (sec.idCell).getD "")

/-- Python tuple comparison on the keys. -/
def keyLE (a b : String × String) : Bool :=
  if a.1 = b.1 then decide (a.2 ≤ b.2) else decide (a.1 < b.1)

/-- Python `processed_rows.sort(key=...)`: a stable sort by key. -/
def sortSections (secs : List ReportSection) : List ReportSection :=
  secs.mergeSort (fun a b => keyLE (sortKey a) (sortKey b))

/-- The document is a sequence of these blocks. -/
inductive DocBlock where
  | pageBreak
  | heading2 (text : String)
  | heading3 (text : String)
  | para (text : String)
  | bullet (text : String)
  deriving Repr, DecidableEq

/-- The rendering loop over the sorted sections: one page break before the
first finding, a level-2 heading on each category transition
(`last_category` starts as `None`), a level-3 heading and requirement
paragraph per row, one bullet per item; the returned flag is
`wrote_any`. -/
def render_sections : Option String → Bool → List ReportSection → List DocBlock × Bool
  | _, wroteAny, [] => ([], wroteAny)
  | lastCategory, wroteAny, sec :: rest =>
    let breakBlocks : List DocBlock := if wroteAny then [] else [.pageBreak]
    let catBlocks : List DocBlock :=
      if some sec.category ≠ lastCategory then [.heading2 sec.category] else []
    let rendered := render_sections (some sec.category) true rest
    (breakBlocks ++ catBlocks ++ [.heading3 sec.title, .para sec.control]
      ++ sec.items.map .bullet ++ rendered.1, rendered.2)

/-- The function `generate_report` over the already-read rows: the produced document
blocks and the returned `rows_reported` flag. -/
def generate_report_model (rows : List Row) : List DocBlock × Bool :=
  render_sections none false (sortSections (report_process rows))

/-! ## Helper lemmas -/

theorem pyTake_length_le (n : Nat) (s : String) : (pyTake n s).length ≤ n := by
  show (s.toList.take n).length ≤ n
  rw [List.length_take]
  exact Nat.min_le_left _ _

theorem mem_of_mem_stripEnds {p : Char → Bool} {l : List Char} {c : Char}
    (h : c ∈ ((l.dropWhile p).reverse.dropWhile p).reverse) : c ∈ l := by
  rw [List.mem_reverse] at h
  have h2 : c ∈ (l.dropWhile p).reverse := List.Sublist.mem h (List.dropWhile_sublist p)
  rw [List.mem_reverse] at h2
  exact List.Sublist.mem h2 (List.dropWhile_sublist p)

/-! ## C9 — the filename-component sanitizer -/

/-- C9: for every input string, every character of `_sanitize s` is a word
character or a hyphen; in particular a sanitized component contains no
path separator, no dot and no whitespace, so the Analyze output filename
built from sanitized components cannot contain them inside those
components. -/
theorem sanitize_output_charset (s : String) (c : Char)
    (hc : c ∈ (_sanitize s).toList) :
    (isWordChar c || c = '-') = true ∧
      c ≠ '/' ∧ c ≠ '\\' ∧ c ≠ '.' ∧ pyIsSpace c = false := by
  have hmem : c ∈ s.toList.map (fun a => if isWordChar a || a = '-' then a else '_') :=
    mem_of_mem_stripEnds (p := fun a => a = '_') hc
  have hw : (isWordChar c || c = '-') = true := by
    rcases List.mem_map.mp hmem with ⟨a, _, ha⟩
    by_cases hcond : (isWordChar a || a = '-') = true
    · rw [if_pos hcond] at ha
      exact ha ▸ hcond
    · rw [if_neg hcond] at ha
      rw [← ha]
      decide
  refine ⟨hw, ?_, ?_, ?_, ?_⟩
  · intro he; rw [he] at hw; exact absurd hw (by decide)
  · intro he; rw [he] at hw; exact absurd hw (by decide)
  · intro he; rw [he] at hw; exact absurd hw (by decide)
  · cases hsp : pyIsSpace c with
    | false => rfl
    | true =>
      simp only [pyIsSpace, Bool.or_eq_true, decide_eq_true_eq] at hsp
      rcases hsp with ((((h | h) | h) | h) | h) | h <;>
        (rw [h] at hw; exact absurd hw (by decide))

theorem sanitize_output_charset_witness :
    'a' ∈ (_sanitize "a/b c.txt").toList ∧
      ((isWordChar 'a' || 'a' = '-') = true ∧
        'a' ≠ '/' ∧ 'a' ≠ '\\' ∧ 'a' ≠ '.' ∧ pyIsSpace 'a' = false) :=
  ⟨by decide, sanitize_output_charset "a/b c.txt" 'a' (by decide)⟩

/-! ## C2 — the verdict validator -/

/-- C2: the validator lowercases and trims the `match` field; it rejects
(`ValidationError`) exactly when the result is not in
`{yes, no, partial}`, and a verdict it returns has `match` in that closed
set and both free-text fields truncated to at most `MAX_FIELD_CHARS`. -/
theorem validate_verdict_closed_set (result : JObj) :
    (coercedMatch result ∉ ALLOWED_MATCH_VALUES → _validate_llm_output result = none) ∧
    (∀ v, _validate_llm_output result = some v →
      v.matchVal = coercedMatch result ∧
      v.matchVal ∈ ALLOWED_MATCH_VALUES ∧
      v.if_yes_reason.length ≤ MAX_FIELD_CHARS ∧
      v.suggestions.length ≤ MAX_FIELD_CHARS) := by
  constructor
  · intro hnot
    unfold _validate_llm_output
    rw [if_neg]
    intro hcon
    exact hnot (List.elem_iff.mp hcon)
  · intro v hv
    unfold _validate_llm_output at hv
    by_cases hcon : ALLOWED_MATCH_VALUES.contains (coercedMatch result) = true
    · rw [if_pos hcon] at hv
      cases hv
      exact ⟨rfl, List.elem_iff.mp hcon, pyTake_length_le _ _, pyTake_length_le _ _⟩
    · rw [if_neg hcon] at hv
      cases hv

theorem validate_verdict_closed_set_witness :
    _validate_llm_output
        [("match", JVal.str " YES "), ("if_yes_reason", JVal.str "r"),
          ("suggestions", JVal.str "s")] =
      some ⟨"yes", "r", "s"⟩ ∧
    "yes" ∈ ALLOWED_MATCH_VALUES := by
  have h := (validate_verdict_closed_set
    [("match", JVal.str " YES "), ("if_yes_reason", JVal.str "r"),
      ("suggestions", JVal.str "s")]).2 ⟨"yes", "r", "s"⟩ rfl
  exact ⟨rfl, h.2.1⟩

/-! ## C7 — Rewrite skips rows with empty suggestions -/

/-- C7: a Rewrite row whose `suggestions` is empty after the
`(row.get("suggestions") or "").strip()` coercion (missing key, `None`, or
whitespace-only) performs no model invocation (0 calls) and yields exactly
the empty rewritten-suggestions result with the row id and model echoed,
regardless of what the model would have answered. -/
theorem rewrite_skips_empty_suggestions (llm : Option JObj) (model : String) (row : Row)
    (h : pyStrip (cellOrEmptyStr row "suggestions") = "") :
    rewrite_process_row llm model row =
      (some ⟨pyStrGetDefaultEmpty row "id", [], model⟩, 0) := by
  unfold rewrite_process_row
  rw [if_pos h]

theorem rewrite_skips_empty_suggestions_witness :
    rewrite_process_row (some [("rewritten_suggestions", JVal.str "ignored")]) "m"
        [(some "id", some "7"), (some "suggestions", some " \n  ")] =
      (some ⟨"7", [], "m"⟩, 0) :=
  rewrite_skips_empty_suggestions _ "m" _ rfl

/-! ## C5 — artifact resolution never escapes the store root -/

/-- C5: in the Rewrite/Report `_resolve_input` and in the download
endpoint, any filename whose resolved path leaves the store root is
rejected (client error) independently of the file system, and any path
either returns (and would open) lies inside the root. -/
theorem artifact_resolution_rejects_escape (root : List String)
    (fsExists isFile : List String → Bool) (filename : String) :
    (∀ p, _resolve_input root fsExists filename = .ok p → root.isPrefixOf p = true) ∧
    (∀ p, download_file root fsExists isFile filename = .ok p → root.isPrefixOf p = true) ∧
    (root.isPrefixOf (resolvePath root filename) = false →
      _resolve_input root fsExists filename = .error .invalidFilename ∧
      download_file root fsExists isFile filename = .error 400) := by
  refine ⟨?_, ?_, ?_⟩
  · intro p hp
    unfold _resolve_input at hp
    by_cases hpre : root.isPrefixOf (resolvePath root filename) = true
    · rw [if_pos hpre] at hp
      by_cases hex : fsExists (resolvePath root filename) = true
      · rw [if_pos hex] at hp
        cases hp
        exact hpre
      · rw [if_neg hex] at hp
        cases hp
    · rw [if_neg hpre] at hp
      cases hp
  · intro p hp
    unfold download_file at hp
    by_cases hpre : root.isPrefixOf (resolvePath root filename) = true
    · rw [if_pos hpre] at hp
      by_cases hex : (fsExists (resolvePath root filename) && isFile (resolvePath root filename)) = true
      · rw [if_pos hex] at hp
        cases hp
        exact hpre
      · rw [if_neg hex] at hp
        cases hp
    · rw [if_neg hpre] at hp
      cases hp
  · intro hpre
    have hpre' : ¬ root.isPrefixOf (resolvePath root filename) = true := by
      rw [hpre]; simp
    constructor
    · unfold _resolve_input
      rw [if_neg hpre']
    · unfold download_file
      rw [if_neg hpre']

theorem artifact_resolution_rejects_escape_witness :
    _resolve_input ["app", "backend", "outputs"] (fun _ => true) "../../etc/passwd" =
      .error .invalidFilename ∧
    download_file ["app", "backend", "outputs"] (fun _ => true) (fun _ => true)
        "/etc/passwd" = .error 400 := by
  constructor
  · exact ((artifact_resolution_rejects_escape ["app", "backend", "outputs"]
      (fun _ => true) (fun _ => true) "../../etc/passwd").2.2 (by decide)).1
  · exact ((artifact_resolution_rejects_escape ["app", "backend", "outputs"]
      (fun _ => true) (fun _ => true) "/etc/passwd").2.2 (by decide)).2

/-! ## C4 — the carried-forward artifact suffix -/

theorem breakAt_of_not_mem {c : Char} {l : List Char} (h : c ∉ l) : breakAt c l = none := by
  induction l with
  | nil => rfl
  | cons x xs ih =>
    rw [List.mem_cons, not_or] at h
    unfold breakAt
    rw [if_neg (Ne.symm h.1), ih h.2]
    rfl

theorem breakAt_append_left {c : Char} {l r : List Char} (h : c ∉ l) :
    breakAt c (l ++ c :: r) = some (l, r) := by
  induction l with
  | nil => simp [breakAt]
  | cons x xs ih =>
    rw [List.mem_cons, not_or] at h
    rw [List.cons_append]
    unfold breakAt
    rw [if_neg (Ne.symm h.1), ih h.2]
    rfl

theorem breakAt_eq_some {c : Char} {l p r : List Char}
    (h : breakAt c l = some (p, r)) : l = p ++ c :: r ∧ c ∉ p := by
  induction l generalizing p r with
  | nil => cases h
  | cons x xs ih =>
    unfold breakAt at h
    by_cases hx : x = c
    · rw [if_pos hx] at h
      cases h
      subst hx
      exact ⟨rfl, List.not_mem_nil x⟩
    · rw [if_neg hx] at h
      cases hb : breakAt c xs with
      | none => rw [hb] at h; cases h
      | some pr =>
        rw [hb] at h
        simp only [Option.map_some', Option.some.injEq, Prod.mk.injEq] at h
        obtain ⟨hp, hr⟩ := h
        obtain ⟨he, hn⟩ := ih (p := pr.1) (r := pr.2) (by rw [hb])
        subst hr
        rw [← hp, List.cons_append, ← he]
        refine ⟨rfl, ?_⟩
        intro hmem
        rcases List.mem_cons.mp hmem with h1 | h2
        · exact hx h1.symm
        · exact hn h2

/-- C4: the carried-forward suffix is the stem minus its first two
underscore-delimited tokens for a stem with at least two underscores, the
whole stem otherwise, and the Rewrite/Report output names are
`{new-timestamp}_{suffix}.{ext}`; in particular the stem
`20240101_120000_Acme_SOC2` yields suffix `Acme_SOC2`. -/
theorem artifact_suffix_carry :
    (∀ a b c2 : String, '_' ∉ a.toList → '_' ∉ b.toList →
      carriedOfStem (a ++ "_" ++ b ++ "_" ++ c2) = c2) ∧
    (∀ stem : String, stem.toList.count '_' ≤ 1 → carriedOfStem stem = stem) ∧
    carriedSuffix "20240101_120000_Acme_SOC2.xlsx" = "Acme_SOC2" ∧
    (∀ ts : String,
      rewriteOutputXlsxName ts "20240101_120000_Acme_SOC2.xlsx" = ts ++ "_Acme_SOC2.xlsx" ∧
      reportOutputDocxName ts "20240101_120000_Acme_SOC2.xlsx" = ts ++ "_Acme_SOC2.docx") := by
  refine ⟨?_, ?_, rfl, ?_⟩
  · intro a b c2 ha hb
    have hl : (a ++ "_" ++ b ++ "_" ++ c2).toList
        = a.toList ++ '_' :: (b.toList ++ '_' :: c2.toList) := by
      show (a ++ "_" ++ b ++ "_" ++ c2).data = a.data ++ '_' :: (b.data ++ '_' :: c2.data)
      simp [String.data_append]
    have h1 : breakAt '_' (a ++ "_" ++ b ++ "_" ++ c2).toList
        = some (a.toList, b.toList ++ '_' :: c2.toList) := by
      rw [hl]
      exact breakAt_append_left ha
    unfold carriedOfStem
    simp only [h1, breakAt_append_left hb]
    rfl
  · intro stem hcount
    cases h1 : breakAt '_' stem.toList with
    | none =>
      unfold carriedOfStem
      rw [h1]
    | some pr =>
      obtain ⟨p1, r1⟩ := pr
      obtain ⟨he, _⟩ := breakAt_eq_some h1
      have h2 : r1.count '_' = 0 := by
        rw [he, List.count_append, List.count_cons_self] at hcount
        omega
      unfold carriedOfStem
      simp only [h1, breakAt_of_not_mem (List.count_eq_zero.mp h2)]
  · intro ts
    constructor
    · show ts ++ "_" ++ carriedSuffix "20240101_120000_Acme_SOC2.xlsx" ++ ".xlsx"
        = ts ++ "_Acme_SOC2.xlsx"
      rw [String.append_assoc, String.append_assoc]
      rfl
    · show ts ++ "_" ++ carriedSuffix "20240101_120000_Acme_SOC2.xlsx" ++ ".docx"
        = ts ++ "_Acme_SOC2.docx"
      rw [String.append_assoc, String.append_assoc]
      rfl

theorem artifact_suffix_carry_witness :
    carriedOfStem ("20240101" ++ "_" ++ "120000" ++ "_" ++ "Acme_SOC2") = "Acme_SOC2" ∧
    carriedOfStem "NoUnderscorePair" = "NoUnderscorePair" ∧
    rewriteOutputXlsxName "20250101_090000" "20240101_120000_Acme_SOC2.xlsx" =
      "20250101_090000" ++ "_Acme_SOC2.xlsx" :=
  ⟨artifact_suffix_carry.1 "20240101" "120000" "Acme_SOC2" (by decide) (by decide),
    artifact_suffix_carry.2.1 "NoUnderscorePair" (by decide),
    (artifact_suffix_carry.2.2.2 "20250101_090000").1⟩

/-! ## C1 — the model-invocation retry loop -/

theorem call_llm_loop_count_le {α : Type} (jl : String → Option α)
    (hasKey : α → String → Bool) (required : List String) (raw : Nat → String) :
    ∀ fuel idx, (call_llm_loop jl hasKey required raw fuel idx).2 ≤ fuel := by
  intro fuel
  induction fuel with
  | zero => intro idx; exact Nat.le_refl 0
  | succ n ih =>
    intro idx
    unfold call_llm_loop
    cases h : llmAttempt jl hasKey required (raw idx) with
    | some r => simp
    | none =>
      simp only []
      exact Nat.succ_le_succ (ih (idx + 1))

/-- C1: for every provider, prompts (the response oracle `raw`) and
required-field list, `call_llm` makes at most 3 backend calls; for a valid
provider it returns the parsed mapping of the first attempt that parses
and has every required field after exactly that many calls, and when all 3
attempts fail it raises `InvocationExhausted` (the `RuntimeError`) after
exactly 3 calls. -/
theorem call_llm_retry_behavior {α : Type} (jl : String → Option α)
    (hasKey : α → String → Bool) (provider : String) (required : List String)
    (raw : Nat → String) :
    ((call_llm jl hasKey provider required raw).2 ≤ 3) ∧
    (llmProviders.contains provider = true →
      (∀ i result, i < 3 →
        llmAttempt jl hasKey required (raw i) = some result →
        (∀ j, j < i → llmAttempt jl hasKey required (raw j) = none) →
        call_llm jl hasKey provider required raw = (CallOutcome.ok result, i + 1)) ∧
      ((∀ i, i < 3 → llmAttempt jl hasKey required (raw i) = none) →
        call_llm jl hasKey provider required raw = (CallOutcome.exhausted, 3))) := by
  constructor
  · unfold call_llm
    by_cases hp : llmProviders.contains provider = true
    · rw [if_pos hp]
      have hle := call_llm_loop_count_le jl hasKey required raw 3 0
      cases hloop : call_llm_loop jl hasKey required raw 3 0 with
      | mk res n =>
        rw [hloop] at hle
        cases res <;> simpa using hle
    · rw [if_neg hp]
      exact Nat.zero_le 3
  · intro hp
    constructor
    · intro i result hi hsucc hprev
      unfold call_llm
      rw [if_pos hp]
      interval_cases i
      · simp [call_llm_loop, hsucc]
      · simp [call_llm_loop, hprev 0 (by omega), hsucc]
      · simp [call_llm_loop, hprev 0 (by omega), hprev 1 (by omega), hsucc]
    · intro hall
      unfold call_llm
      rw [if_pos hp]
      simp [call_llm_loop, hall 0 (by omega), hall 1 (by omega), hall 2 (by omega)]

theorem call_llm_retry_behavior_witness :
    call_llm jsonLoads dictHas "anthropic" ["match"]
        (fun n => if n = 0 then "no json at all" else "\x7b\"match\": \"yes\"\x7d") =
      (CallOutcome.ok [("match", JVal.str "yes")], 2) := by
  exact ((call_llm_retry_behavior jsonLoads dictHas "anthropic" ["match"]
      (fun n => if n = 0 then "no json at all" else "\x7b\"match\": \"yes\"\x7d")).2
    (by decide)).1 1 [("match", JVal.str "yes")] (by omega) rfl
    (by intro j hj; interval_cases j; rfl)

/-! ## C3 — the three-tier JSON extraction -/

/-- C3 (amended): extraction first parses the whole text; if that fails it
searches for a fenced code block (with or without a language tag) and,
when one is found, the outcome of the attempt is exactly the parse of its
contents — a failure there does not fall through; only when no fenced
block is found is the first-open-brace-to-last-close-brace span searched
for and parsed; when no tier applies the attempt is a parse failure. -/
theorem parse_json_tiers_amended {α : Type} (jl : String → Option α) (text : String) :
    (∀ v, jl text = some v → parse_json jl text = some v) ∧
    (jl text = none → ∀ g, fenceSearch text = some g → parse_json jl text = jl g) ∧
    (jl text = none → fenceSearch text = none →
      ∀ g, braceSpan text.toList = some g → parse_json jl text = jl g) ∧
    (jl text = none → fenceSearch text = none → braceSpan text.toList = none →
      parse_json jl text = none) := by
  refine ⟨?_, ?_, ?_, ?_⟩
  · intro v hv
    unfold parse_json
    rw [hv]
  · intro h g hg
    unfold parse_json
    rw [h, hg]
  · intro h hf g hb
    unfold parse_json
    rw [h, hf, hb]
  · intro h hf hb
    unfold parse_json
    rw [h, hf, hb]

theorem parse_json_tiers_amended_witness :
    parse_json jsonLoads "noise ```json \x7b\"a\": 1\x7d ``` more" =
      some [("a", JVal.num 1)] := by
  have h := (parse_json_tiers_amended jsonLoads
    "noise ```json \x7b\"a\": 1\x7d ``` more").2.1 rfl "\x7b\"a\": 1\x7d" rfl
  exact h.trans rfl

/-- C3 counterexample: on this input the whole-text parse fails and a
fenced block is found whose contents do not parse, so the extraction
in the code fails — while the three-tier reading of the claim (tier-2 failure
falls through to tier 3) parses the brace span successfully. -/
theorem parse_json_tiers_counterexample :
    parse_json jsonLoads "\x7b\"note\": \"``` \x7bx\x7d ```\"\x7d tail" = none ∧
    parse_json_spec jsonLoads "\x7b\"note\": \"``` \x7bx\x7d ```\"\x7d tail" =
      some [("note", JVal.str "``` \x7bx\x7d ```")] :=
  ⟨rfl, rfl⟩

/-! ## C6 — the write-back frame property -/

theorem header_length_le (s : Sheet) : s.header.length ≤ sheetMaxColumn s :=
  (Nat.le_max_right 1 s.header.length).trans (Nat.le_max_left _ _)

theorem row_length_le {s : Sheet} {r : List Cell} (hr : r ∈ s.rows) :
    r.length ≤ sheetMaxColumn s := by
  have aux : ∀ L : List (List Cell), r ∈ L →
      r.length ≤ L.foldr (fun x acc => max x.length acc) 0 := by
    intro L
    induction L with
    | nil => intro h; cases h
    | cons x xs ih =>
      intro h
      rcases List.mem_cons.mp h with rfl | h2
      · exact Nat.le_max_left _ _
      · exact (ih h2).trans (Nat.le_max_right _ _)
  exact (aux s.rows hr).trans (Nat.le_max_right _ _)

theorem padTo_length {n : Nat} {r : List Cell} (h : r.length ≤ n) :
    (padTo n r).length = n := by
  simp only [padTo, List.length_append, List.length_replicate]
  omega

theorem take_padTo_append (n : Nat) (r t : List Cell) :
    (padTo n r ++ t).take r.length = r := by
  rw [padTo, List.append_assoc]
  exact List.take_left r _

theorem drop_padTo_append {n : Nat} {r : List Cell} (h : r.length ≤ n) (t : List Cell) :
    (padTo n r ++ t).drop n = t := by
  have hl := List.drop_left (padTo n r) t
  rwa [padTo_length h] at hl

/-- C6: merging stage results into the table keeps every original header
cell and every original row cell unchanged (they are the prefix of the
output), appends the new columns exactly once after the existing last
column, keeps the row count, fills matched rows with the looked-up values
and leaves unmatched rows (by string-coerced first-column id) blank in the
new columns.  The output is a function of the input alone, so repeated
runs on the same input never accumulate duplicate columns. -/
theorem merge_table_frame (s : Sheet) (newCols : List String)
    (lookup : String → Option (List Cell)) :
    ((mergeTable s newCols lookup).header.take s.header.length = s.header) ∧
    ((mergeTable s newCols lookup).header.drop (sheetMaxColumn s) = newCols.map some) ∧
    ((mergeTable s newCols lookup).rows.length = s.rows.length) ∧
    (∀ (j : Nat) (r : List Cell), s.rows[j]? = some r →
      ∃ r', (mergeTable s newCols lookup).rows[j]? = some r' ∧
        r'.take r.length = r ∧
        (lookup (pyStrCell (r.getD 0 none)) = none →
          r'.drop (sheetMaxColumn s) = List.replicate newCols.length none) ∧
        (∀ vals, lookup (pyStrCell (r.getD 0 none)) = some vals →
          r'.drop (sheetMaxColumn s) = vals)) := by
  refine ⟨take_padTo_append _ _ _, drop_padTo_append (header_length_le s) _, by
    simp [mergeTable], ?_⟩
  intro j r hr
  have hmem : r ∈ s.rows := List.getElem?_mem hr
  have hlen : r.length ≤ sheetMaxColumn s := row_length_le hmem
  have hj : (mergeTable s newCols lookup).rows[j]? =
      some (match lookup (pyStrCell (r.getD 0 none)) with
            | some vals => padTo (sheetMaxColumn s) r ++ vals
            | none => padTo (sheetMaxColumn s) r ++ List.replicate newCols.length none) := by
    show (s.rows.map _)[j]? = _
    rw [List.getElem?_map, hr]
    rfl
  cases hlk : lookup (pyStrCell (r.getD 0 none)) with
  | none =>
    rw [hlk] at hj
    refine ⟨_, hj, take_padTo_append _ _ _, fun _ => drop_padTo_append hlen _, ?_⟩
    intro vals hv
    cases hv
  | some vals =>
    rw [hlk] at hj
    refine ⟨_, hj, take_padTo_append _ _ _, ?_, ?_⟩
    · intro hv
      cases hv
    · intro vals2 hv
      cases hv
      exact drop_padTo_append hlen _

theorem merge_table_frame_witness :
    ∃ r', (mergeTable ⟨[some "id", some "control"], [[some "1", some "c"]]⟩
        analyzeNewCols
        (analyzeLookup [⟨some "1", "yes", "because", "improve", "model-x"⟩])).rows[0]? =
          some r' ∧
      r'.take 2 = [some "1", some "c"] ∧
      (analyzeLookup [⟨some "1", "yes", "because", "improve", "model-x"⟩]
          (pyStrCell (([some "1", some "c"] : List Cell).getD 0 none)) = none →
        r'.drop 2 = List.replicate analyzeNewCols.length none) ∧
      (∀ vals, analyzeLookup [⟨some "1", "yes", "because", "improve", "model-x"⟩]
          (pyStrCell (([some "1", some "c"] : List Cell).getD 0 none)) = some vals →
        r'.drop 2 = vals) := by
  exact (merge_table_frame ⟨[some "id", some "control"], [[some "1", some "c"]]⟩
    analyzeNewCols
    (analyzeLookup [⟨some "1", "yes", "because", "improve", "model-x"⟩])).2.2.2
    0 [some "1", some "c"] rfl

/-! ## C8 and C10 — report row selection -/

def isHeading3 : DocBlock → Bool
  | .heading3 _ => true
  | _ => false

theorem report_process_eq (rows : List Row) :
    report_process rows = (rows.filter reportIncluded).map mkSection := by
  induction rows with
  | nil => rfl
  | cons row rest ih =>
    by_cases h : reportIncluded row = true
    · simp [report_process, List.filter_cons, h, ih]
    · simp [report_process, List.filter_cons, h, ih]

theorem render_sections_flag (lc : Option String) (w : Bool) (secs : List ReportSection) :
    (render_sections lc w secs).2 = (w || !secs.isEmpty) := by
  induction secs generalizing lc w with
  | nil => simp [render_sections]
  | cons sec rest ih =>
    simp [render_sections, ih]

theorem countP_heading3_bullets (items : List String) :
    (items.map DocBlock.bullet).countP isHeading3 = 0 := by
  induction items with
  | nil => rfl
  | cons x xs ih => simp [List.countP_cons, isHeading3, ih]

theorem render_sections_heading3_count (lc : Option String) (w : Bool)
    (secs : List ReportSection) :
    (render_sections lc w secs).1.countP isHeading3 = secs.length := by
  induction secs generalizing lc w with
  | nil => simp [render_sections]
  | cons sec rest ih =>
    unfold render_sections
    simp only [List.countP_append, ih, countP_heading3_bullets]
    split_ifs <;> simp [List.countP_cons, List.countP_nil, isHeading3] <;> omega

theorem sortSections_length (secs : List ReportSection) :
    (sortSections secs).length = secs.length :=
  List.length_mergeSort secs

/-- C8: the report includes exactly the rows whose `suggestions` is
non-empty after coercion — each contributes one level-3 heading — and the
returned `rows_reported` flag is `false` exactly when zero rows were
included. -/
theorem report_excludes_and_flag (rows : List Row) :
    report_process rows = (rows.filter reportIncluded).map mkSection ∧
    (generate_report_model rows).1.countP isHeading3 = (rows.filter reportIncluded).length ∧
    ((generate_report_model rows).2 = false ↔ (rows.filter reportIncluded).length = 0) := by
  have hproc := report_process_eq rows
  have hlen : (sortSections (report_process rows)).length = (rows.filter reportIncluded).length := by
    rw [sortSections_length, hproc, List.length_map]
  refine ⟨hproc, ?_, ?_⟩
  · show (render_sections none false (sortSections (report_process rows))).1.countP isHeading3 = _
    rw [render_sections_heading3_count]
    exact hlen
  · show (render_sections none false (sortSections (report_process rows))).2 = false ↔ _
    rw [render_sections_flag, Bool.false_or, ← hlen]
    cases hsort : sortSections (report_process rows) with
    | nil => simp
    | cons a l => simp

theorem pyStrip_eq_empty {s : String} :
    pyStrip s = "" ↔ ∀ c ∈ s.toList, pyIsSpace c = true := by
  unfold pyStrip
  constructor
  · intro h c hc
    have hX : ((s.toList.dropWhile pyIsSpace).reverse.dropWhile pyIsSpace).reverse = [] := by
      have h2 := congrArg String.toList h
      simpa using h2
    rw [List.reverse_eq_nil_iff, List.dropWhile_eq_nil_iff] at hX
    have hdrop : ∀ x ∈ s.toList.dropWhile pyIsSpace, pyIsSpace x = true := fun x hx =>
      hX x (List.mem_reverse.mpr hx)
    have hsplit := List.takeWhile_append_dropWhile pyIsSpace s.toList
    rw [← hsplit] at hc
    rcases List.mem_append.mp hc with h1 | h2
    · exact List.mem_takeWhile_imp h1
    · exact hdrop c h2
  · intro h
    rw [List.dropWhile_eq_nil_iff.mpr h]
    rfl

theorem mem_splitOnChar_mem {sep : Char} :
    ∀ {cs p : List Char}, p ∈ splitOnChar sep cs → ∀ {c : Char}, c ∈ p → c ∈ cs := by
  intro cs
  induction cs with
  | nil =>
    intro p hp c hc
    simp [splitOnChar] at hp
    subst hp
    cases hc
  | cons x xs ih =>
    intro p hp c hc
    unfold splitOnChar at hp
    by_cases hx : x = sep
    · rw [if_pos hx] at hp
      rcases List.mem_cons.mp hp with rfl | h2
      · cases hc
      · exact List.mem_cons_of_mem _ (ih h2 hc)
    · rw [if_neg hx] at hp
      cases hsp : splitOnChar sep xs with
      | nil =>
        rw [hsp] at hp
        rcases List.mem_cons.mp hp with rfl | h2
        · rcases List.mem_cons.mp hc with rfl | h3
          · exact List.mem_cons_self _ _
          · cases h3
        · cases h2
      | cons hd tl =>
        rw [hsp] at hp
        rcases List.mem_cons.mp hp with rfl | h2
        · rcases List.mem_cons.mp hc with rfl | h3
          · exact List.mem_cons_self _ _
          · exact List.mem_cons_of_mem _
              (ih (p := hd) (by rw [hsp]; exact List.mem_cons_self _ _) h3)
        · exact List.mem_cons_of_mem _
            (ih (p := p) (by rw [hsp]; exact List.mem_cons_of_mem _ h2) hc)

/-- A cell that is `None` or whitespace-only. -/
def cellBlank : Cell → Bool
  | none => true
  | some s => pyStrip s == ""

theorem parse_bullet_items_of_blank {c : Cell} (h : cellBlank c = true) :
    _parse_bullet_items c = [] := by
  cases c with
  | none => rfl
  | some s =>
    have hs : pyStrip s = "" := by simpa [cellBlank] using h
    have hall := pyStrip_eq_empty.mp hs
    show (((((splitLines s.toList).map String.mk).filter (fun it => pyStrip it != "")).map
      (fun it => _sanitize_text (some it) MAX_BULLET_CHARS)).take MAX_BULLET_ITEMS) = []
    have hfil : ((splitLines s.toList).map String.mk).filter (fun it => pyStrip it != "") = [] := by
      rw [List.filter_eq_nil_iff]
      intro it hit
      rcases List.mem_map.mp hit with ⟨piece, hpiece, rfl⟩
      have hws : ∀ ch ∈ piece, pyIsSpace ch = true := fun ch hch =>
        hall ch (mem_splitOnChar_mem hpiece hch)
      have hempty : pyStrip (String.mk piece) = "" := pyStrip_eq_empty.mpr (by simpa using hws)
      simp [hempty]
    rw [hfil]
    rfl

theorem heading3_mem_render :
    ∀ {secs : List ReportSection} {sec : ReportSection}, sec ∈ secs →
      ∀ (lc : Option String) (w : Bool),
        DocBlock.heading3 sec.title ∈ (render_sections lc w secs).1 := by
  intro secs
  induction secs with
  | nil =>
    intro sec h
    cases h
  | cons s0 rest ih =>
    intro sec h lc w
    unfold render_sections
    rcases List.mem_cons.mp h with rfl | h2
    · simp
    · have hr := ih h2 (some s0.category) true
      exact List.mem_append_right _ hr

/-- C10: an included row with a blank `rewritten_suggestions` cell still
has its section in the report — heading and paragraph, zero bullet
items — and makes `rows_reported` true; inclusion ignores
`rewritten_suggestions` entirely, and the bullet parser drops blank lines
before applying the item-count cap. -/
theorem report_blank_rewritten_included (rows : List Row) (row : Row)
    (hmem : row ∈ rows) (hinc : reportIncluded row = true)
    (hblank : cellBlank (rowGet row "rewritten_suggestions") = true) :
    (generate_report_model rows).2 = true ∧
    mkSection row ∈ sortSections (report_process rows) ∧
    (mkSection row).items = [] ∧
    DocBlock.heading3 (mkSection row).title ∈ (generate_report_model rows).1 ∧
    (∀ (r : Row) (c : Cell),
      reportIncluded (r ++ [(some "rewritten_suggestions", c)]) = reportIncluded r) ∧
    (∀ s : String, (_parse_bullet_items (some s)).length =
      min MAX_BULLET_ITEMS
        (((splitLines s.toList).map String.mk).filter (fun it => pyStrip it != "")).length) := by
  have hfil : row ∈ rows.filter reportIncluded := List.mem_filter.mpr ⟨hmem, hinc⟩
  have hsec : mkSection row ∈ report_process rows := by
    rw [report_process_eq]
    exact List.mem_map_of_mem _ hfil
  have hsort : mkSection row ∈ sortSections (report_process rows) :=
    ((List.mergeSort_perm (report_process rows) _).mem_iff).mpr hsec
  refine ⟨?_, hsort, parse_bullet_items_of_blank hblank, ?_, ?_, ?_⟩
  · show (render_sections none false (sortSections (report_process rows))).2 = true
    rw [render_sections_flag, Bool.false_or]
    cases hs : sortSections (report_process rows) with
    | nil => rw [hs] at hsort; cases hsort
    | cons a l => rfl
  · exact heading3_mem_render hsort none false
  · intro r c
    unfold reportIncluded cellOrEmptyStr rowGet rowGetOpt
    rw [List.reverse_append]
    rfl
  · intro s
    unfold _parse_bullet_items
    rw [List.length_take, List.length_map]

theorem report_blank_rewritten_included_witness :
    (generate_report_model
        [[(some "id", some "1"), (some "title", some "T"), (some "control", some "C"),
          (some "category", some "Cat"), (some "suggestions", some "fix it"),
          (some "rewritten_suggestions", some "  ")]]).2 = true ∧
    (mkSection
        [(some "id", some "1"), (some "title", some "T"), (some "control", some "C"),
          (some "category", some "Cat"), (some "suggestions", some "fix it"),
          (some "rewritten_suggestions", some "  ")]).items = [] := by
  have h := report_blank_rewritten_included
    [[(some "id", some "1"), (some "title", some "T"), (some "control", some "C"),
      (some "category", some "Cat"), (some "suggestions", some "fix it"),
      (some "rewritten_suggestions", some "  ")]]
    [(some "id", some "1"), (some "title", some "T"), (some "control", some "C"),
      (some "category", some "Cat"), (some "suggestions", some "fix it"),
      (some "rewritten_suggestions", some "  ")]
    (List.mem_cons_self _ _) rfl rfl
  exact ⟨h.1, h.2.2.1⟩

end PolicyMatcher
